import Mathlib

/-!
Verification of the ip-monitor ping scheduling and reconciliation engine.

This file is a shallow embedding of the core of the repository:
`src/services/pingService.js` (cycle orchestration, retry supervision,
reconciliation), `src/workers/pingWorker.js` (per-batch probing),
`src/server.js` (the periodic driver), and the Mongoose `IP` and
`Downtime` models (`bulkUpdateStatus`, `recordDowntime`, `updateDuration`).

Modelling conventions:
* Timestamps are naturals (milliseconds); the several `new Date()` /
  `Date.now()` calls inside one reconciliation are a single explicit
  `now` parameter.
* A MongoDB collection is a list of documents; `updateOne` /
  `findOneAndUpdate` update the first matching document, which matches
  Mongo semantics on the `address`-unique `IP` collection.
* `$setOnInsert` in `bulkUpdateStatus` is inert because the update is not
  an upsert, so it is not modelled.
* Worker-thread infrastructure failure (the `error` / nonzero `exit`
  events of `pingInWorker`) is an oracle `wfail batch attempt`; the
  result of the `ping` library for one address is an oracle `prober`.
-/

namespace IpMonitor

/-- Target reachability status: the `status` enum of `ipSchema`. -/
inductive Status
  | up
  | down
  | unknown
deriving DecidableEq, Repr

/-- One document of the `IP` collection (the fields the core mutates). -/
structure IPDoc where
  address : String
  status : Status
  downtimeCount : Nat
  lastDowntime : Option Nat
  lastChecked : Nat
  responseTime : Option Nat
deriving DecidableEq, Repr

/-- One document of the `Downtime` collection. -/
structure DowntimeEvent where
  ipAddress : String
  timestamp : Nat
  duration : Option Nat
  reason : String
deriving DecidableEq, Repr

/-- One ping outcome, as produced by `pingWorker.js` and consumed by
`updatePingResults`. -/
structure PingResult where
  address : String
  alive : Bool
  time : Option Nat
  error : Option String
deriving DecidableEq, Repr

/-- The mutable store: the `IP` and `Downtime` collections. -/
structure MonState where
  ips : List IPDoc
  downtimes : List DowntimeEvent
deriving DecidableEq, Repr

/-- `IP.findOne({address})` on the address-unique collection: the first
document with the given address. -/
def findIP (l : List IPDoc) (a : String) : Option IPDoc :=
  l.find? (fun ip => ip.address == a)

/-- `updateOne` / `findOneAndUpdate` with filter `{address: a}`: apply
`f` to the first matching document, leave the rest unchanged; a no-op
when no document matches. -/
def updateFirst (l : List IPDoc) (a : String) (f : IPDoc → IPDoc) : List IPDoc :=
  match l with
  | [] => []
  | ip :: rest => if ip.address = a then f ip :: rest else ip :: updateFirst rest a f

/-- Replace the first occurrence of `e` by `e2` (Mongo
`findByIdAndUpdate` on the document found by `latestOpen`). -/
def setFirst (l : List DowntimeEvent) (e e2 : DowntimeEvent) : List DowntimeEvent :=
  match l with
  | [] => []
  | x :: rest => if x = e then e2 :: rest else x :: setFirst rest e e2

/-- Remove the first occurrence of `e`. -/
def eraseFirst (l : List DowntimeEvent) (e : DowntimeEvent) : List DowntimeEvent :=
  match l with
  | [] => []
  | x :: rest => if x = e then rest else x :: eraseFirst rest e

/-- The open (duration = null) downtime events of one address, in
collection order. -/
def openFor (evts : List DowntimeEvent) (a : String) : List DowntimeEvent :=
  evts.filter (fun e => e.ipAddress == a && e.duration == none)

/-- `Downtime.recordDowntime`: insert a new event with `duration: null`
and the schema-default reason. -/
def recordDowntime (now : Nat) (evts : List DowntimeEvent) (a : String) : List DowntimeEvent :=
  evts ++ [{ ipAddress := a, timestamp := now, duration := none, reason := "Ping timeout" }]

/-- First event with the greatest timestamp of a list (the Mongo
`sort({timestamp: -1}).findOne()` result, ties resolved to the earliest
inserted). -/
def maxOpen (l : List DowntimeEvent) : Option DowntimeEvent :=
  l.foldl
    (fun acc e =>
      match acc with
      | none => some e
      | some b => if b.timestamp < e.timestamp then some e else acc)
    none

/-- `findOne({ipAddress, duration: null}).sort({timestamp: -1})`: the
open event of `a` with the greatest timestamp. -/
def latestOpen (evts : List DowntimeEvent) (a : String) : Option DowntimeEvent :=
  maxOpen (openFor evts a)

/-- `Downtime.updateDuration`: close the most recent open event of `a`
with `duration = now - timestamp`; a no-op when none is open. -/
def updateDuration (now : Nat) (evts : List DowntimeEvent) (a : String) : List DowntimeEvent :=
  match latestOpen evts a with
  | none => evts
  | some e => setFirst evts e { e with duration := some (now - e.timestamp) }

/-- `result.alive ? 'Up' : 'Down'`. -/
def newStatus (r : PingResult) : Status :=
  if r.alive then Status.up else Status.down

/-- The `$set`/`$inc` document of one `bulkUpdateStatus` op: set
`status`, `lastChecked`, `responseTime` (`update.time || null`, so a
zero latency is stored as null), and increment `downtimeCount` for
every non-alive update. -/
def applyBulk (now : Nat) (u : PingResult) (ip : IPDoc) : IPDoc :=
  { ip with
    status := newStatus u
    lastChecked := now
    responseTime := match u.time with
      | some t => if t = 0 then none else some t
      | none => none
    downtimeCount := ip.downtimeCount + (if u.alive then 0 else 1) }

/-- `IP.bulkUpdateStatus`: one `updateOne` per result, applied in list
order; returns the new collection and the number of matched documents. -/
def bulkUpdateStatus (now : Nat) (l : List IPDoc) (updates : List PingResult) :
    List IPDoc × Nat :=
  updates.foldl
    (fun acc u =>
      (updateFirst acc.1 u.address (applyBulk now u),
       acc.2 + if (findIP acc.1 u.address).isSome then 1 else 0))
    (l, 0)

/-- A detected status change (one entry of `statusChanges`). -/
structure Change where
  address : String
  fromStatus : Status
  toStatus : Status
deriving DecidableEq, Repr

/-- The per-result change detection of `updatePingResults`: a change is
pushed when the address has a current status in the store and it
differs from the new one (`currentStatus && currentStatus !== newStatus`). -/
def detectChange (ips : List IPDoc) (r : PingResult) : Option Change :=
  match findIP ips r.address with
  | none => none
  | some ip =>
    if ip.status ≠ newStatus r then
      some { address := r.address, fromStatus := ip.status, toStatus := newStatus r }
    else none

/-- The `findOneAndUpdate` document of the Down branch of the change
loop: set `lastDowntime` and `$inc` `downtimeCount`. -/
def downSet (now : Nat) (ip : IPDoc) : IPDoc :=
  { ip with lastDowntime := some now, downtimeCount := ip.downtimeCount + 1 }

/-- The body of the `for (const change of statusChanges)` loop: on a
change to Down, record a new downtime event and update the IP's
`lastDowntime` / `downtimeCount`; on a Down-to-Up change, close the
latest open downtime event; otherwise do nothing. -/
def applyChange (now : Nat) (st : MonState) (c : Change) : MonState :=
  if c.toStatus = Status.down then
    { ips := updateFirst st.ips c.address (downSet now),
      downtimes := recordDowntime now st.downtimes c.address }
  else if c.toStatus = Status.up ∧ c.fromStatus = Status.down then
    { st with downtimes := updateDuration now st.downtimes c.address }
  else st

/-- The summary object returned by `updatePingResults`. -/
structure UpdateSummary where
  total : Nat
  updated : Nat
  statusChanges : Nat
deriving DecidableEq, Repr

/-- `updatePingResults`: detect changes against the pre-cycle snapshot,
apply the per-change downtime bookkeeping, then bulk-update every
address's status. -/
def updatePingResults (now : Nat) (st : MonState) (results : List PingResult) :
    MonState × UpdateSummary :=
  let changes := results.filterMap (detectChange st.ips)
  let st1 := changes.foldl (applyChange now) st
  let bulk := bulkUpdateStatus now st1.ips results
  ({ ips := bulk.1, downtimes := st1.downtimes },
   { total := results.length, updated := bulk.2, statusChanges := changes.length })

/-- Current status of an address in the store. -/
def statusOf (st : MonState) (a : String) : Option Status :=
  (findIP st.ips a).map (fun ip => ip.status)

/-- The result of `ping.promise.probe` for one address (oracle side). -/
structure ProbeRes where
  alive : Bool
  time : Option Nat
  output : Option String

/-- The environment of one cycle: the fallible target load, the probe
and worker-failure oracles, the configuration, and the store. -/
structure CycleEnv where
  loadIps : Except String (List IPDoc)
  prober : String → Except String ProbeRes
  wfail : List String → Nat → Bool
  maxWorkers : Nat
  maxBatchSize : Nat
  now : Nat
  st : MonState
  updateFail : Option String

/-- `pingIP` of `pingWorker.js`: always yields an outcome carrying the
probed address; probe-library exceptions are captured as `alive=false`. -/
def pingIP (prober : String → Except String ProbeRes) (ipAddress : String) : PingResult :=
  match prober ipAddress with
  | Except.ok r =>
    { address := ipAddress, alive := r.alive, time := r.time,
      error := if r.alive then none else some (r.output.getD "Ping failed") }
  | Except.error msg =>
    { address := ipAddress, alive := false, time := none, error := some msg }

/-- `pingInWorker`: spawn a worker on a batch.  On infrastructure
failure (worker error or nonzero exit, decided by the `wfail` oracle
for this attempt) the promise rejects; otherwise it resolves with one
`pingIP` outcome per address, in order (`Promise.all`). -/
def pingInWorker (env : CycleEnv) (batch : List String) (attempt : Nat) :
    Option (List PingResult) :=
  if env.wfail batch attempt then none else some (batch.map (pingIP env.prober))

/-- `processBatchWithRetry`: return worker results; on failure retry
while `retries > 0`, and once exhausted synthesize one unreachable
outcome per address of the batch. -/
def processBatchWithRetry (env : CycleEnv) (batch : List String) :
    Nat → List PingResult
  | 0 =>
    match pingInWorker env batch 0 with
    | some rs => rs
    | none => batch.map (fun ip =>
        { address := ip, alive := false, time := none,
          error := some "Worker thread failed after retries" })
  | r + 1 =>
    match pingInWorker env batch (r + 1) with
    | some rs => rs
    | none => processBatchWithRetry env batch r

/-- `Math.ceil(a / b)` on naturals. -/
def ceilDiv (a b : Nat) : Nat := (a + b - 1) / b

/-- The slicing loop `for (let i = 0; i < ipCount; i += batchSize)`,
with the list length as structural fuel (the loop advances by at least
one element per iteration whenever `bs ≥ 1`). -/
def chunksAux (bs : Nat) : Nat → List α → List (List α)
  | 0, _ => []
  | _ + 1, [] => []
  | fuel + 1, a :: l => (a :: l).take bs :: chunksAux bs fuel ((a :: l).drop bs)

/-- Split a list into consecutive slices of `bs` elements (the last one
may be shorter). -/
def chunks (bs : Nat) (l : List α) : List (List α) :=
  chunksAux bs l.length l

/-- The partitioner of `runPingCycle`:
`optimalWorkerCount = min(maxWorkers, ceil(ipCount / maxBatchSize))`,
`batchSize = ceil(ipCount / optimalWorkerCount)`, then slice. -/
def cycleBatches (maxWorkers maxBatchSize : Nat) (addrs : List String) :
    List (List String) :=
  let wc := Nat.min maxWorkers (ceilDiv addrs.length maxBatchSize)
  chunks (ceilDiv addrs.length wc) addrs

/-- The flattened outcome list of one cycle: every batch through the
retry supervisor (retry budget 2), results flattened in batch order. -/
def cycleOutcomes (env : CycleEnv) (ips : List IPDoc) : List PingResult :=
  ((cycleBatches env.maxWorkers env.maxBatchSize (ips.map (fun ip => ip.address))).map
    (fun b => processBatchWithRetry env b 2)).flatten

/-- The value returned by `runPingCycle` (absent JS fields are `none`). -/
structure CycleResult where
  total : Nat
  processed : Nat
  changes : Option Nat := none
  up : Option Nat := none
  down : Option Nat := none
  error : Option String := none
deriving DecidableEq, Repr

/-- The body of `runPingCycle`'s `try` block: any storage failure (the
initial `IP.find` or the reconciliation writes) escapes as an
exception. -/
def runPingCycleE (env : CycleEnv) : Except String CycleResult :=
  match env.loadIps with
  | Except.error e => Except.error e
  | Except.ok ips =>
    if ips.length = 0 then Except.ok { total := 0, processed := 0 }
    else
      let results := cycleOutcomes env ips
      match env.updateFail with
      | some e => Except.error e
      | none =>
        let summary := (updatePingResults env.now env.st results).2
        Except.ok {
          total := ips.length
          processed := results.length
          changes := some summary.statusChanges
          up := some (results.countP (fun r => r.alive))
          down := some (results.countP (fun r => !r.alive)) }

/-- `runPingCycle`: the `catch` converts any failure of the body into a
zero-work result value carrying the error message. -/
def runPingCycle (env : CycleEnv) : CycleResult :=
  match runPingCycleE env with
  | Except.ok r => r
  | Except.error e => { total := 0, processed := 0, error := some e }

/-- The driver schedule of `startPingService` (`server.js`): the first
cycle starts immediately, and `setInterval` starts cycle `k ≥ 1` at the
fixed wall-clock time `k * interval`; an unsettled previous cycle does
not defer the timer (the callback only awaits within its own
invocation). -/
def cycleStartTime (interval : Nat) : Nat → Nat
  | 0 => 0
  | k + 1 => (k + 1) * interval

/-- Settle time of cycle `k` when its full duration (probing plus DB
writes) is `dur k`. -/
def cycleSettleTime (interval : Nat) (dur : Nat → Nat) (k : Nat) : Nat :=
  cycleStartTime interval k + dur k

/-- Addresses of a result list are pairwise distinct. -/
def nodupAddrs (results : List PingResult) : Prop :=
  (results.map (fun r => r.address)).Nodup

/-- The downtime-event store invariant: each address has at most one
open event, and an open event only exists for an address currently
recorded as Down. -/
def OpenInv (st : MonState) : Prop :=
  ∀ a, (openFor st.downtimes a).length ≤ 1 ∧
    (1 ≤ (openFor st.downtimes a).length → statusOf st a = some Status.down)

/-- Mirror of `chunksAux` on lengths only. -/
def lenChunks (bs : Nat) : Nat → Nat → List Nat
  | 0, _ => []
  | _ + 1, 0 => []
  | fuel + 1, n + 1 => Nat.min bs (n + 1) :: lenChunks bs fuel (n + 1 - bs)

/-- The list component of `bulkUpdateStatus` as a plain fold. -/
def bulkApplyList (now : Nat) (l : List IPDoc) (updates : List PingResult) : List IPDoc :=
  updates.foldl (fun acc u => updateFirst acc u.address (applyBulk now u)) l

/-- Effect of one entry of the `statusChanges` loop on the open-event
list of its own address. -/
def openEffect (now : Nat) (c : Change) (cur : List DowntimeEvent) : List DowntimeEvent :=
  if c.toStatus = Status.down then
    cur ++ [{ ipAddress := c.address, timestamp := now, duration := none,
              reason := "Ping timeout" }]
  else if c.toStatus = Status.up ∧ c.fromStatus = Status.down then
    match maxOpen cur with
    | none => cur
    | some e => eraseFirst cur e
  else cur

/-- Effect of one entry of the `statusChanges` loop on the IP document
of its own address. -/
def ipEffect (now : Nat) (c : Change) (ip : IPDoc) : IPDoc :=
  if c.toStatus = Status.down then
    { ip with lastDowntime := some now, downtimeCount := ip.downtimeCount + 1 }
  else ip

/-- The status a document ends up with after a left-to-right sequence
of bulk status writes, starting from `x`. -/
def foldStatus (x : Status) : List PingResult → Status
  | [] => x
  | r :: rest => foldStatus (newStatus r) rest

/-! ### Concrete states and environments used by witnesses and
counterexamples -/

def ipsW1 : List IPDoc :=
  [{ address := "10.0.0.1", status := Status.up, downtimeCount := 0,
     lastDowntime := none, lastChecked := 0, responseTime := none },
   { address := "10.0.0.2", status := Status.unknown, downtimeCount := 0,
     lastDowntime := none, lastChecked := 0, responseTime := none }]

def envW1 : CycleEnv :=
  { loadIps := Except.ok ipsW1
    prober := fun _ => Except.ok { alive := true, time := some 12, output := none }
    wfail := fun _ _ => false
    maxWorkers := 4
    maxBatchSize := 50
    now := 1000
    st := { ips := ipsW1, downtimes := [] }
    updateFail := none }

def ipsC3 : List IPDoc :=
  [{ address := "10.0.0.1", status := Status.up, downtimeCount := 0,
     lastDowntime := none, lastChecked := 0, responseTime := none }]

def envC3 : CycleEnv :=
  { loadIps := Except.ok ipsC3
    prober := fun _ => Except.error "probe crashed"
    wfail := fun _ _ => true
    maxWorkers := 4
    maxBatchSize := 50
    now := 1000
    st := { ips := ipsC3, downtimes := [] }
    updateFail := none }

def envC6 : CycleEnv :=
  { loadIps := Except.error "db down"
    prober := fun _ => Except.error "probe crashed"
    wfail := fun _ _ => false
    maxWorkers := 4
    maxBatchSize := 50
    now := 0
    st := { ips := [], downtimes := [] }
    updateFail := none }

def stC2a : MonState :=
  { ips := [{ address := "10.0.0.1", status := Status.up, downtimeCount := 0,
              lastDowntime := none, lastChecked := 0, responseTime := none }],
    downtimes := [] }

def stC2b : MonState :=
  { ips := [{ address := "10.0.0.1", status := Status.down, downtimeCount := 0,
              lastDowntime := none, lastChecked := 0, responseTime := none }],
    downtimes := [] }

def rC2 : PingResult :=
  { address := "10.0.0.1", alive := false, time := none, error := some "timeout" }

def stC4 : MonState :=
  { ips := [{ address := "10.0.0.1", status := Status.down, downtimeCount := 1,
              lastDowntime := some 40, lastChecked := 40, responseTime := none }],
    downtimes := [{ ipAddress := "10.0.0.1", timestamp := 40, duration := none,
                    reason := "Ping timeout" }] }

def rC4 : PingResult :=
  { address := "10.0.0.1", alive := true, time := some 7, error := none }

def stC8 : MonState :=
  { ips := [{ address := "10.0.0.1", status := Status.unknown, downtimeCount := 0,
              lastDowntime := none, lastChecked := 0, responseTime := none }],
    downtimes := [] }

def rC8 : PingResult :=
  { address := "10.0.0.2", alive := true, time := some 5, error := none }

def stC9 : MonState :=
  { ips := [{ address := "10.0.0.1", status := Status.up, downtimeCount := 0,
              lastDowntime := none, lastChecked := 0, responseTime := none }],
    downtimes := [] }

def rC9 : PingResult :=
  { address := "10.0.0.1", alive := false, time := none, error := some "timeout" }

def stC5 : MonState :=
  { ips := [{ address := "10.0.0.1", status := Status.up, downtimeCount := 0,
              lastDowntime := none, lastChecked := 0, responseTime := none }],
    downtimes := [] }

def cyclesC5 : List (Nat × List PingResult) :=
  [(100, [{ address := "10.0.0.1", alive := false, time := none, error := some "t" }]),
   (200, [{ address := "10.0.0.1", alive := false, time := none, error := some "t" }]),
   (300, [{ address := "10.0.0.1", alive := true, time := some 3, error := none }])]

/-! ### Basic lemmas about the worker and partitioner -/

theorem pingIP_address (prober : String → Except String ProbeRes) (a : String) :
    (pingIP prober a).address = a := by
  unfold pingIP
  cases prober a <;> rfl

theorem processBatchWithRetry_map_address (env : CycleEnv) (batch : List String) :
    ∀ retries, (processBatchWithRetry env batch retries).map (fun r => r.address) = batch := by
  intro retries
  induction retries with
  | zero =>
    unfold processBatchWithRetry pingInWorker
    by_cases h : env.wfail batch 0 = true <;>
      simp [h, List.map_map, Function.comp_def, pingIP_address]
  | succ r ih =>
    unfold processBatchWithRetry pingInWorker
    by_cases h : env.wfail batch (r + 1) = true <;>
      simp [h, List.map_map, Function.comp_def, pingIP_address]
    · exact ih

theorem chunksAux_flatten (bs : Nat) (hbs : 1 ≤ bs) :
    ∀ (fuel : Nat) (l : List α), l.length ≤ fuel → (chunksAux bs fuel l).flatten = l := by
  intro fuel
  induction fuel with
  | zero =>
    intro l hl
    have : l = [] := List.length_eq_zero.mp (Nat.le_zero.mp hl)
    subst this
    rfl
  | succ f ih =>
    intro l hl
    match l with
    | [] => rfl
    | a :: l =>
      rw [chunksAux, List.flatten_cons, ih]
      · exact List.take_append_drop bs (a :: l)
      · have hlen : ((a :: l).drop bs).length = (a :: l).length - bs := List.length_drop bs _
        rw [hlen]
        simp only [List.length_cons] at hl ⊢
        omega

theorem chunks_flatten (bs : Nat) (hbs : 1 ≤ bs) (l : List α) :
    (chunks bs l).flatten = l :=
  chunksAux_flatten bs hbs l.length l (Nat.le_refl _)

theorem ceilDiv_pos (a b : Nat) (ha : 1 ≤ a) (hb : 1 ≤ b) : 1 ≤ ceilDiv a b := by
  unfold ceilDiv
  rw [Nat.one_le_div_iff hb]
  omega

theorem chunksAux_map_length (bs : Nat) :
    ∀ (fuel : Nat) (l : List α),
      (chunksAux bs fuel l).map List.length = lenChunks bs fuel l.length := by
  intro fuel
  induction fuel with
  | zero => intro l; rfl
  | succ f ih =>
    intro l
    match l with
    | [] => rfl
    | a :: l =>
      rw [chunksAux, List.map_cons, ih, List.length_take, List.length_drop]
      rfl

theorem cycleBatches_flatten (maxWorkers maxBatchSize : Nat) (addrs : List String)
    (hne : addrs ≠ []) (hmw : 1 ≤ maxWorkers) (hmb : 1 ≤ maxBatchSize) :
    (cycleBatches maxWorkers maxBatchSize addrs).flatten = addrs := by
  have ha : 1 ≤ addrs.length := by
    cases addrs with
    | nil => exact absurd rfl hne
    | cons a l => simp
  unfold cycleBatches
  exact chunks_flatten _
    (ceilDiv_pos _ _ ha (le_min hmw (ceilDiv_pos _ _ ha hmb))) _

theorem cycleOutcomes_map_address (env : CycleEnv) (ips : List IPDoc)
    (hne : ips ≠ []) (hmw : 1 ≤ env.maxWorkers) (hmb : 1 ≤ env.maxBatchSize) :
    (cycleOutcomes env ips).map (fun r => r.address) = ips.map (fun ip => ip.address) := by
  unfold cycleOutcomes
  rw [List.map_flatten, List.map_map]
  have hmap : ((cycleBatches env.maxWorkers env.maxBatchSize
      (ips.map (fun ip => ip.address))).map
        ((List.map fun r => r.address) ∘ fun b => processBatchWithRetry env b 2)) =
      (cycleBatches env.maxWorkers env.maxBatchSize
        (ips.map (fun ip => ip.address))).map id := by
    apply List.map_congr_left
    intro b _
    simp [Function.comp_def, processBatchWithRetry_map_address]
  rw [hmap, List.map_id]
  apply cycleBatches_flatten _ _ _ _ hmw hmb
  intro h
  exact hne (List.map_eq_nil_iff.mp h)

theorem processBatchWithRetry_allFail (env : CycleEnv) (batch : List String)
    (hf : ∀ n, env.wfail batch n = true) :
    ∀ k, processBatchWithRetry env batch k = batch.map (fun ip =>
      { address := ip, alive := false, time := none,
        error := some "Worker thread failed after retries" }) := by
  intro k
  induction k with
  | zero => unfold processBatchWithRetry pingInWorker; simp [hf 0]
  | succ r ih => unfold processBatchWithRetry pingInWorker; simp [hf (r + 1), ih]

/-- The success path of `runPingCycle`: the reported `processed` count
equals the reported `total`. -/
theorem runPingCycle_processed_eq_total (env : CycleEnv) (ips : List IPDoc)
    (hload : env.loadIps = Except.ok ips) (hne : ips ≠ [])
    (hmw : 1 ≤ env.maxWorkers) (hmb : 1 ≤ env.maxBatchSize)
    (hupd : env.updateFail = none) :
    (runPingCycle env).processed = (runPingCycle env).total := by
  have hlen : (cycleOutcomes env ips).length = ips.length := by
    have h := congrArg List.length (cycleOutcomes_map_address env ips hne hmw hmb)
    simpa using h
  have h0 : ¬ ips.length = 0 := by
    intro h
    exact hne (List.length_eq_zero.mp h)
  simp [runPingCycle, runPingCycleE, hload, hupd, h0, hlen]

/-- C1: a non-empty target set loaded at the start of a cycle yields
exactly one probe outcome per target address — the outcome addresses
are exactly the loaded addresses, with no duplicates and no omissions —
and the cycle result reports `processed = total`. -/
theorem cycle_coverage (env : CycleEnv) (ips : List IPDoc)
    (hload : env.loadIps = Except.ok ips) (hne : ips ≠ [])
    (hmw : 1 ≤ env.maxWorkers) (hmb : 1 ≤ env.maxBatchSize)
    (hupd : env.updateFail = none) :
    (cycleOutcomes env ips).map (fun r => r.address) = ips.map (fun ip => ip.address) ∧
    (runPingCycle env).processed = (runPingCycle env).total :=
  ⟨cycleOutcomes_map_address env ips hne hmw hmb,
   runPingCycle_processed_eq_total env ips hload hne hmw hmb hupd⟩

/-- Witness for C1 on a concrete two-target environment. -/
theorem cycle_coverage_witness :
    envW1.loadIps = Except.ok ipsW1 ∧ ipsW1 ≠ [] ∧
    1 ≤ envW1.maxWorkers ∧ 1 ≤ envW1.maxBatchSize ∧ envW1.updateFail = none ∧
    ((cycleOutcomes envW1 ipsW1).map (fun r => r.address) =
        ipsW1.map (fun ip => ip.address) ∧
      (runPingCycle envW1).processed = (runPingCycle envW1).total) :=
  ⟨rfl, by decide, by decide, by decide, rfl,
   cycle_coverage envW1 ipsW1 rfl (by decide) (by decide) (by decide) rfl⟩

/-- C3 (amended): when every worker execution attempt for every batch
fails (3 attempts with the default budget of 2 retries), every target
of the cycle receives one synthetic outcome with `alive = false` and
error `"Worker thread failed after retries"`, and the cycle still
reports `processed = total`. -/
theorem retry_exhaustion_synthetic (env : CycleEnv) (ips : List IPDoc)
    (hload : env.loadIps = Except.ok ips) (hne : ips ≠ [])
    (hmw : 1 ≤ env.maxWorkers) (hmb : 1 ≤ env.maxBatchSize)
    (hupd : env.updateFail = none)
    (hfail : ∀ b n, env.wfail b n = true) :
    (∀ r ∈ cycleOutcomes env ips, r.alive = false ∧
      r.error = some "Worker thread failed after retries") ∧
    (runPingCycle env).processed = (runPingCycle env).total := by
  refine ⟨?_, runPingCycle_processed_eq_total env ips hload hne hmw hmb hupd⟩
  intro r hr
  unfold cycleOutcomes at hr
  rw [List.mem_flatten] at hr
  obtain ⟨l, hl, hrl⟩ := hr
  rw [List.mem_map] at hl
  obtain ⟨b, hb, rfl⟩ := hl
  rw [processBatchWithRetry_allFail env b (fun n => hfail b n)] at hrl
  rw [List.mem_map] at hrl
  obtain ⟨ip, _, rfl⟩ := hrl
  exact ⟨rfl, rfl⟩

/-- Counterexample for C3 as stated: after retry exhaustion the
synthetic outcome's error text is `"Worker thread failed after
retries"`, not `"execution failed after retries"`. -/
theorem retry_exhaustion_error_string_cex :
    cycleOutcomes envC3 ipsC3 =
      [{ address := "10.0.0.1", alive := false, time := none,
         error := some "Worker thread failed after retries" }] ∧
    ¬ (∀ r ∈ cycleOutcomes envC3 ipsC3,
        r.error = some "execution failed after retries") := by
  exact ⟨by decide, by decide⟩

/-- Witness for C3 (amended) on a concrete single-target environment. -/
theorem retry_exhaustion_synthetic_witness :
    envC3.loadIps = Except.ok ipsC3 ∧ ipsC3 ≠ [] ∧
    1 ≤ envC3.maxWorkers ∧ 1 ≤ envC3.maxBatchSize ∧ envC3.updateFail = none ∧
    (∀ b n, envC3.wfail b n = true) ∧
    ((∀ r ∈ cycleOutcomes envC3 ipsC3, r.alive = false ∧
        r.error = some "Worker thread failed after retries") ∧
      (runPingCycle envC3).processed = (runPingCycle envC3).total) :=
  ⟨rfl, by decide, by decide, by decide, rfl, fun _ _ => rfl,
   retry_exhaustion_synthetic envC3 ipsC3 rfl (by decide) (by decide) (by decide)
     rfl (fun _ _ => rfl)⟩

/-- C6: `runPingCycle` never lets a failure escape: a storage read
failure while loading targets yields the zero-work result carrying the
error message, and in general every cycle returns either a successful
result (no error field) or exactly that zero-work failure result. -/
theorem runPingCycle_captures_failures :
    (∀ (env : CycleEnv) (e : String), env.loadIps = Except.error e →
      runPingCycle env = { total := 0, processed := 0, error := some e }) ∧
    (∀ env : CycleEnv, (runPingCycle env).error = none ∨
      ∃ e, runPingCycle env = { total := 0, processed := 0, error := some e }) := by
  constructor
  · intro env e h
    simp [runPingCycle, runPingCycleE, h]
  · intro env
    cases hE : runPingCycleE env with
    | error e =>
      right
      exact ⟨e, by simp [runPingCycle, hE]⟩
    | ok r =>
      left
      have hre : r.error = none := by
        unfold runPingCycleE at hE
        cases hl : env.loadIps with
        | error e => rw [hl] at hE; simp at hE
        | ok ips =>
          rw [hl] at hE
          by_cases h0 : ips.length = 0
          · simp [h0] at hE
            rw [← hE]
          · simp [h0] at hE
            cases hu : env.updateFail with
            | some e => rw [hu] at hE; simp at hE
            | none =>
              rw [hu] at hE
              simp at hE
              rw [← hE]
      simp [runPingCycle, hE, hre]

/-- Witness for C6: a concrete cycle whose target load fails returns
the zero-work failure result. -/
theorem runPingCycle_captures_failures_witness :
    envC6.loadIps = Except.error "db down" ∧
    runPingCycle envC6 = { total := 0, processed := 0, error := some "db down" } :=
  ⟨rfl, runPingCycle_captures_failures.1 envC6 "db down" rfl⟩

/-- Counterexample for C7 as stated: with the default 5000 ms interval,
the driver does not wait for cycle N to settle before starting cycle
N+1 — a cycle lasting 12000 ms is still running when the next timer
fire starts the next cycle. -/
theorem driver_fixed_timer_cex :
    ¬ ∀ (dur : Nat → Nat) (k : Nat),
        cycleSettleTime 5000 dur k ≤ cycleStartTime 5000 (k + 1) := by
  intro h
  exact absurd (h (fun _ => 12000) 0) (by decide)

/-- C7 (amended): the driver's `setInterval` schedule starts cycle N+1
at the fixed wall-clock time (N+1)·interval, and it overlaps the
still-running cycle N exactly when cycle N's duration exceeds the
interval. -/
theorem driver_overlap_iff (interval : Nat) (dur : Nat → Nat) (k : Nat) :
    cycleStartTime interval (k + 1) < cycleSettleTime interval dur k ↔
      interval < dur k := by
  cases k with
  | zero => simp [cycleStartTime, cycleSettleTime]
  | succ j =>
    show (j + 1 + 1) * interval < (j + 1) * interval + dur (j + 1) ↔ _
    rw [Nat.succ_mul]
    omega

/-- C10: the partition computation — `workerCount = min(maxWorkers,
ceil(N / maxBatchSize))`, `batchSize = ceil(N / workerCount)` — yields,
for 130 targets with maxWorkers = 4 and maxBatchSize = 50, workerCount
3, batchSize 44, and batches of sizes 44, 44, 42 in order. -/
theorem partition_sizing (addrs : List String) (h : addrs.length = 130) :
    Nat.min 4 (ceilDiv 130 50) = 3 ∧ ceilDiv 130 3 = 44 ∧
    (cycleBatches 4 50 addrs).map List.length = [44, 44, 42] := by
  refine ⟨by decide, by decide, ?_⟩
  simp only [cycleBatches, chunks]
  rw [chunksAux_map_length, h]
  decide

/-- Witness for C10 on a concrete 130-address list. -/
theorem partition_sizing_witness :
    (List.replicate 130 "10.0.0.1").length = 130 ∧
    (Nat.min 4 (ceilDiv 130 50) = 3 ∧ ceilDiv 130 3 = 44 ∧
      (cycleBatches 4 50 (List.replicate 130 "10.0.0.1")).map List.length =
        [44, 44, 42]) :=
  ⟨by simp, partition_sizing _ (by simp)⟩

/-! ### Lemmas about the store primitives -/

theorem findIP_updateFirst (l : List IPDoc) (a b : String) (f : IPDoc → IPDoc)
    (hf : ∀ ip, (f ip).address = ip.address) :
    findIP (updateFirst l a f) b = if b = a then (findIP l a).map f else findIP l b := by
  induction l with
  | nil => simp [findIP, updateFirst]
  | cons x rest ih =>
    simp only [updateFirst]
    by_cases hx : x.address = a
    · simp only [if_pos hx]
      by_cases hb : b = a
      · subst hb
        have h1 : ((f x).address == b) = true := by rw [hf x, hx]; exact beq_self_eq_true b
        have h2 : (x.address == b) = true := by rw [hx]; exact beq_self_eq_true b
        simp [findIP, List.find?, h1, h2]
      · have h1 : ((f x).address == b) = false := by
          rw [hf x, hx]; exact beq_eq_false_iff_ne.mpr (fun h => hb h.symm)
        have h2 : (x.address == b) = false := by
          rw [hx]; exact beq_eq_false_iff_ne.mpr (fun h => hb h.symm)
        simp [findIP, List.find?, h1, h2, hb]
    · simp only [if_neg hx]
      by_cases hxb : x.address = b
      · have hb : ¬ b = a := fun h => hx (h ▸ hxb)
        have h2 : (x.address == b) = true := beq_iff_eq.mpr hxb
        have h3 : (x.address == a) = false := beq_eq_false_iff_ne.mpr hx
        simp [findIP, List.find?, h2, h3, hb]
      · have h2 : (x.address == b) = false := beq_eq_false_iff_ne.mpr hxb
        have h3 : (x.address == a) = false := beq_eq_false_iff_ne.mpr hx
        simpa [findIP, List.find?, h2, h3] using ih

theorem findIP_updateFirst_self (l : List IPDoc) (a : String) (f : IPDoc → IPDoc)
    (hf : ∀ ip, (f ip).address = ip.address) :
    findIP (updateFirst l a f) a = (findIP l a).map f := by
  rw [findIP_updateFirst l a a f hf, if_pos rfl]

theorem findIP_updateFirst_ne (l : List IPDoc) (a b : String) (f : IPDoc → IPDoc)
    (hf : ∀ ip, (f ip).address = ip.address) (hb : b ≠ a) :
    findIP (updateFirst l a f) b = findIP l b := by
  rw [findIP_updateFirst l a b f hf, if_neg hb]

theorem updateFirst_not_found (l : List IPDoc) (a : String) (f : IPDoc → IPDoc)
    (h : findIP l a = none) : updateFirst l a f = l := by
  induction l with
  | nil => rfl
  | cons x rest ih =>
    simp only [findIP, List.find?] at h
    by_cases hx : x.address = a
    · rw [beq_iff_eq.mpr hx] at h
      simp at h
    · rw [beq_eq_false_iff_ne.mpr hx] at h
      simp only [updateFirst, if_neg hx]
      rw [ih h]

theorem bulkUpdateStatus_fst_aux (now : Nat) (updates : List PingResult) :
    ∀ (l : List IPDoc) (n : Nat),
      (updates.foldl
        (fun acc u =>
          (updateFirst acc.1 u.address (applyBulk now u),
           acc.2 + if (findIP acc.1 u.address).isSome then 1 else 0)) (l, n)).1 =
      bulkApplyList now l updates := by
  induction updates with
  | nil => intro l n; rfl
  | cons u rest ih =>
    intro l n
    simp only [List.foldl_cons, bulkApplyList] at *
    exact ih _ _

theorem bulkUpdateStatus_fst (now : Nat) (l : List IPDoc) (updates : List PingResult) :
    (bulkUpdateStatus now l updates).1 = bulkApplyList now l updates := by
  unfold bulkUpdateStatus
  exact bulkUpdateStatus_fst_aux now updates l 0

theorem applyBulk_address (now : Nat) (u : PingResult) (ip : IPDoc) :
    (applyBulk now u ip).address = ip.address := rfl

theorem downSet_address (now : Nat) (ip : IPDoc) :
    (downSet now ip).address = ip.address := rfl

theorem findIP_bulkApplyList (now : Nat) (updates : List PingResult) :
    ∀ (l : List IPDoc) (a : String),
      findIP (bulkApplyList now l updates) a =
        (updates.filter (fun u => u.address == a)).foldl
          (fun acc u => acc.map (applyBulk now u)) (findIP l a) := by
  induction updates with
  | nil => intro l a; rfl
  | cons u rest ih =>
    intro l a
    simp only [bulkApplyList, List.foldl_cons, List.filter_cons]
    by_cases hu : u.address = a
    · have := ih (updateFirst l u.address (applyBulk now u)) a
      simp only [bulkApplyList] at this
      rw [this]
      subst hu
      rw [findIP_updateFirst_self _ _ _ (applyBulk_address now u)]
      simp
    · have := ih (updateFirst l u.address (applyBulk now u)) a
      simp only [bulkApplyList] at this
      rw [this]
      rw [findIP_updateFirst_ne _ _ _ _ (applyBulk_address now u) (fun h => hu h.symm)]
      simp [beq_eq_false_iff_ne.mpr hu]

/-! ### Lemmas about downtime events and the change loop -/

theorem openFor_recordDowntime (now : Nat) (evts : List DowntimeEvent) (b a : String) :
    openFor (recordDowntime now evts b) a =
      openFor evts a ++
        if b = a then
          [{ ipAddress := b, timestamp := now, duration := none, reason := "Ping timeout" }]
        else [] := by
  unfold recordDowntime openFor
  rw [List.filter_append]
  congr 1
  by_cases hb : b = a
  · simp [hb]
  · simp [List.filter, beq_eq_false_iff_ne.mpr hb, hb]

theorem filter_setFirst_of_mem (p : DowntimeEvent → Bool) (e e2 : DowntimeEvent)
    (he : p e = true) (he2 : p e2 = false) :
    ∀ l : List DowntimeEvent,
      List.filter p (setFirst l e e2) = eraseFirst (List.filter p l) e := by
  intro l
  induction l with
  | nil => rfl
  | cons x rest ih =>
    by_cases hx : x = e
    · subst hx
      simp [setFirst, List.filter_cons, he, he2, eraseFirst]
    · simp only [setFirst, if_neg hx, List.filter_cons]
      by_cases hpx : p x = true
      · simp [hpx, eraseFirst, hx, ih]
      · simp only [Bool.not_eq_true] at hpx
        simp [hpx, ih]

theorem filter_setFirst_of_not_mem (p : DowntimeEvent → Bool) (e e2 : DowntimeEvent)
    (he : p e = false) (he2 : p e2 = false) :
    ∀ l : List DowntimeEvent,
      List.filter p (setFirst l e e2) = List.filter p l := by
  intro l
  induction l with
  | nil => rfl
  | cons x rest ih =>
    by_cases hx : x = e
    · subst hx
      simp [setFirst, List.filter_cons, he, he2]
    · simp only [setFirst, if_neg hx, List.filter_cons]
      by_cases hpx : p x = true
      · simp [hpx, ih]
      · simp only [Bool.not_eq_true] at hpx
        simp [hpx, ih]

theorem maxOpen_aux_mem :
    ∀ (l : List DowntimeEvent) (acc : Option DowntimeEvent) (x : DowntimeEvent),
      l.foldl
        (fun acc e =>
          match acc with
          | none => some e
          | some b => if b.timestamp < e.timestamp then some e else acc) acc = some x →
      acc = some x ∨ x ∈ l := by
  intro l
  induction l with
  | nil => intro acc x h; exact Or.inl h
  | cons e rest ih =>
    intro acc x h
    rw [List.foldl_cons] at h
    rcases ih _ x h with h1 | h1
    · cases acc with
      | none =>
        have he : e = x := by simpa using h1
        exact Or.inr (he ▸ List.mem_cons_self e rest)
      | some b =>
        by_cases hlt : b.timestamp < e.timestamp
        · have he : e = x := by simpa [hlt] using h1
          exact Or.inr (he ▸ List.mem_cons_self e rest)
        · exact Or.inl (by simpa [hlt] using h1)
    · exact Or.inr (List.mem_cons_of_mem e h1)

theorem maxOpen_mem (l : List DowntimeEvent) (x : DowntimeEvent)
    (h : maxOpen l = some x) : x ∈ l := by
  rcases maxOpen_aux_mem l none x h with h1 | h1
  · exact absurd h1 (by simp)
  · exact h1

theorem mem_openFor (evts : List DowntimeEvent) (a : String) (e : DowntimeEvent)
    (h : e ∈ openFor evts a) : e.ipAddress = a ∧ e.duration = none := by
  unfold openFor at h
  rw [List.mem_filter] at h
  simpa using h.2

theorem openFor_updateDuration (now : Nat) (evts : List DowntimeEvent) (a : String) :
    openFor (updateDuration now evts a) a =
      match maxOpen (openFor evts a) with
      | none => openFor evts a
      | some e => eraseFirst (openFor evts a) e := by
  unfold updateDuration latestOpen
  cases h : maxOpen (openFor evts a) with
  | none => rfl
  | some e =>
    have hprops := mem_openFor evts a e (maxOpen_mem _ _ h)
    exact filter_setFirst_of_mem _ _ _
      (by simp [hprops.1, hprops.2]) (by simp [hprops.1]) evts

theorem openFor_updateDuration_ne (now : Nat) (evts : List DowntimeEvent) (b a : String)
    (hba : b ≠ a) :
    openFor (updateDuration now evts b) a = openFor evts a := by
  unfold updateDuration latestOpen
  cases h : maxOpen (openFor evts b) with
  | none => rfl
  | some e =>
    have hprops := mem_openFor evts b e (maxOpen_mem _ _ h)
    exact filter_setFirst_of_not_mem _ _ _
      (by simp [hprops.1, hba]) (by simp [hprops.1, hba]) evts

theorem openFor_applyChange (now : Nat) (st : MonState) (c : Change) (a : String) :
    openFor (applyChange now st c).downtimes a =
      if c.address = a then openEffect now c (openFor st.downtimes a)
      else openFor st.downtimes a := by
  by_cases h1 : c.toStatus = Status.down
  · have hd : (applyChange now st c).downtimes = recordDowntime now st.downtimes c.address := by
      unfold applyChange; rw [if_pos h1]
    rw [hd, openFor_recordDowntime]
    unfold openEffect
    rw [if_pos h1]
    by_cases ha : c.address = a
    · subst ha; simp
    · simp [ha]
  · by_cases h2 : c.toStatus = Status.up ∧ c.fromStatus = Status.down
    · have hd : (applyChange now st c).downtimes = updateDuration now st.downtimes c.address := by
        unfold applyChange; rw [if_neg h1, if_pos h2]
      rw [hd]
      unfold openEffect
      rw [if_neg h1, if_pos h2]
      by_cases ha : c.address = a
      · subst ha
        rw [openFor_updateDuration]
        simp
      · rw [openFor_updateDuration_ne _ _ _ _ ha]
        simp [ha]
    · have hd : (applyChange now st c) = st := by
        unfold applyChange; rw [if_neg h1, if_neg h2]
      rw [hd]
      unfold openEffect
      rw [if_neg h1, if_neg h2]
      simp

theorem openFor_applyChanges (now : Nat) (changes : List Change) :
    ∀ (st : MonState) (a : String),
      openFor ((changes.foldl (applyChange now) st).downtimes) a =
        (changes.filter (fun c => c.address == a)).foldl
          (fun cur c => openEffect now c cur) (openFor st.downtimes a) := by
  induction changes with
  | nil => intro st a; rfl
  | cons c cs ih =>
    intro st a
    rw [List.foldl_cons, ih, openFor_applyChange]
    by_cases ha : c.address = a <;> simp [ha]

theorem ipEffect_address (now : Nat) (c : Change) (ip : IPDoc) :
    (ipEffect now c ip).address = ip.address := by
  unfold ipEffect; split <;> rfl

theorem ipEffect_status (now : Nat) (c : Change) (ip : IPDoc) :
    (ipEffect now c ip).status = ip.status := by
  unfold ipEffect; split <;> rfl

theorem findIP_applyChange (now : Nat) (st : MonState) (c : Change) (a : String) :
    findIP (applyChange now st c).ips a =
      if c.address = a then (findIP st.ips a).map (ipEffect now c)
      else findIP st.ips a := by
  by_cases h1 : c.toStatus = Status.down
  · have hd : (applyChange now st c).ips = updateFirst st.ips c.address (downSet now) := by
      unfold applyChange; rw [if_pos h1]
    rw [hd, findIP_updateFirst _ _ _ _ (downSet_address now)]
    have hf : downSet now = ipEffect now c := by
      funext ip; unfold ipEffect downSet; rw [if_pos h1]
    rw [hf]
    by_cases ha : c.address = a
    · rw [if_pos ha.symm, if_pos ha, ha]
    · rw [if_neg (fun h => ha h.symm), if_neg ha]
  · have hd : (applyChange now st c).ips = st.ips := by
      unfold applyChange
      rw [if_neg h1]
      by_cases h2 : c.toStatus = Status.up ∧ c.fromStatus = Status.down
      · rw [if_pos h2]
      · rw [if_neg h2]
    rw [hd]
    have hf : ipEffect now c = fun ip => ip := by
      funext ip; unfold ipEffect; rw [if_neg h1]
    rw [hf]
    by_cases ha : c.address = a <;> simp [ha]

theorem findIP_applyChanges (now : Nat) (changes : List Change) :
    ∀ (st : MonState) (a : String),
      findIP ((changes.foldl (applyChange now) st).ips) a =
        (changes.filter (fun c => c.address == a)).foldl
          (fun acc c => acc.map (ipEffect now c)) (findIP st.ips a) := by
  induction changes with
  | nil => intro st a; rfl
  | cons c cs ih =>
    intro st a
    rw [List.foldl_cons, ih, findIP_applyChange]
    by_cases ha : c.address = a <;> simp [ha]

theorem foldl_ipEffect_status (now : Nat) :
    ∀ (cs : List Change) (acc : Option IPDoc),
      (cs.foldl (fun acc c => acc.map (ipEffect now c)) acc).map (fun ip => ip.status) =
        acc.map (fun ip => ip.status) := by
  intro cs
  induction cs with
  | nil => intro acc; rfl
  | cons c rest ih =>
    intro acc
    rw [List.foldl_cons, ih, Option.map_map]
    congr 1
    funext ip
    exact ipEffect_status now c ip

theorem foldl_ipEffect_isSome (now : Nat) :
    ∀ (cs : List Change) (acc : Option IPDoc),
      (cs.foldl (fun acc c => acc.map (ipEffect now c)) acc).isSome = acc.isSome := by
  intro cs
  induction cs with
  | nil => intro acc; rfl
  | cons c rest ih =>
    intro acc
    rw [List.foldl_cons, ih]
    cases acc <;> rfl

/-- The post-state of `updatePingResults` through the fold views. -/
theorem updatePingResults_state (now : Nat) (st : MonState) (results : List PingResult) :
    (updatePingResults now st results).1 =
      { ips := bulkApplyList now
          ((results.filterMap (detectChange st.ips)).foldl (applyChange now) st).ips results,
        downtimes :=
          ((results.filterMap (detectChange st.ips)).foldl (applyChange now) st).downtimes } := by
  simp only [updatePingResults]
  rw [bulkUpdateStatus_fst]

/-! ### Change detection and status-after-reconciliation lemmas -/

theorem detectChange_some_inv (ips : List IPDoc) (r : PingResult) (c : Change)
    (h : detectChange ips r = some c) :
    ∃ ip, findIP ips r.address = some ip ∧ ip.status ≠ newStatus r ∧
      c = { address := r.address, fromStatus := ip.status, toStatus := newStatus r } := by
  cases hf : findIP ips r.address with
  | none => simp only [detectChange, hf] at h; cases h
  | some ip =>
    simp only [detectChange, hf] at h
    by_cases hne : ip.status ≠ newStatus r
    · rw [if_pos hne] at h
      exact ⟨ip, rfl, hne, (Option.some_inj.mp h).symm⟩
    · rw [if_neg hne] at h; cases h

theorem detectChange_address (ips : List IPDoc) (r : PingResult) (c : Change)
    (h : detectChange ips r = some c) : c.address = r.address := by
  obtain ⟨ip, _, _, hc⟩ := detectChange_some_inv ips r c h
  rw [hc]

theorem detectChange_none_found (ips : List IPDoc) (r : PingResult) (ip : IPDoc)
    (hip : findIP ips r.address = some ip) (h : detectChange ips r = none) :
    ip.status = newStatus r := by
  simp only [detectChange, hip] at h
  by_cases hne : ip.status ≠ newStatus r
  · rw [if_pos hne] at h; cases h
  · exact not_not.mp hne

theorem detectChange_not_found (ips : List IPDoc) (r : PingResult)
    (hip : findIP ips r.address = none) : detectChange ips r = none := by
  simp only [detectChange, hip]

theorem filter_filterMap_detectChange (ips : List IPDoc) (a : String) :
    ∀ results : List PingResult,
      (results.filterMap (detectChange ips)).filter (fun c => c.address == a) =
        (results.filter (fun r => r.address == a)).filterMap (detectChange ips) := by
  intro results
  induction results with
  | nil => rfl
  | cons r rest ih =>
    rw [List.filterMap_cons, List.filter_cons]
    cases hd : detectChange ips r with
    | none =>
      by_cases ha : r.address = a
      · simp only [beq_iff_eq.mpr ha, if_pos]
        rw [List.filterMap_cons, hd, ih]
      · rw [beq_eq_false_iff_ne.mpr ha]
        simpa using ih
    | some c =>
      have hca : c.address = r.address := detectChange_address ips r c hd
      rw [List.filter_cons]
      by_cases ha : r.address = a
      · have hca2 : (c.address == a) = true := beq_iff_eq.mpr (hca.trans ha)
        simp only [beq_iff_eq.mpr ha, if_pos, hca2]
        rw [List.filterMap_cons, hd, ih]
      · have hca2 : (c.address == a) = false :=
          beq_eq_false_iff_ne.mpr (fun h => ha (hca ▸ h))
        rw [beq_eq_false_iff_ne.mpr ha, hca2]
        simpa using ih

theorem nodupAddrs_filter_length (results : List PingResult) (hnd : nodupAddrs results)
    (a : String) : (results.filter (fun r => r.address == a)).length ≤ 1 := by
  have hsub : ((results.filter (fun r => r.address == a)).map (fun r => r.address)).Sublist
      (results.map (fun r => r.address)) :=
    (List.filter_sublist results).map _
  have hnd2 : ((results.filter (fun r => r.address == a)).map (fun r => r.address)).Nodup :=
    List.Nodup.sublist hsub hnd
  have hall : ∀ x ∈ (results.filter (fun r => r.address == a)).map (fun r => r.address),
      x = a := by
    intro x hx
    rw [List.mem_map] at hx
    obtain ⟨r, hr, rfl⟩ := hx
    rw [List.mem_filter] at hr
    exact beq_iff_eq.mp hr.2
  rw [← List.length_map (results.filter (fun r => r.address == a)) (fun r => r.address)]
  cases hl : (results.filter (fun r => r.address == a)).map (fun r => r.address) with
  | nil => simp
  | cons x t =>
    cases t with
    | nil => simp
    | cons y t2 =>
      exfalso
      rw [hl] at hnd2 hall
      have hx : x = a := hall x (by simp)
      have hy : y = a := hall y (by simp)
      rw [List.nodup_cons] at hnd2
      exact hnd2.1 (by simp [hx, hy])

theorem foldl_ipEffect_none (now : Nat) (cs : List Change) :
    cs.foldl (fun acc c => acc.map (ipEffect now c)) none = none := by
  induction cs with
  | nil => rfl
  | cons c rest ih => simpa using ih

theorem foldl_applyBulk_none (now : Nat) (rs : List PingResult) :
    rs.foldl (fun acc u => acc.map (applyBulk now u)) none = none := by
  induction rs with
  | nil => rfl
  | cons u rest ih => simpa using ih

theorem foldl_ipEffect_some (now : Nat) (cs : List Change) (ip : IPDoc) :
    ∃ ip2, cs.foldl (fun acc c => acc.map (ipEffect now c)) (some ip) = some ip2 ∧
      ip2.status = ip.status := by
  have h1 := foldl_ipEffect_isSome now cs (some ip)
  cases hx : cs.foldl (fun acc c => acc.map (ipEffect now c)) (some ip) with
  | none => rw [hx] at h1; simp at h1
  | some ip2 =>
    refine ⟨ip2, rfl, ?_⟩
    have h2 := foldl_ipEffect_status now cs (some ip)
    rw [hx] at h2
    simpa using h2

theorem applyBulk_status (now : Nat) (u : PingResult) (ip : IPDoc) :
    (applyBulk now u ip).status = newStatus u := rfl

theorem foldl_applyBulk_status (now : Nat) :
    ∀ (rs : List PingResult) (x : IPDoc),
      (rs.foldl (fun acc u => acc.map (applyBulk now u)) (some x)).map
          (fun ip => ip.status) =
        some (foldStatus x.status rs) := by
  intro rs
  induction rs with
  | nil => intro x; rfl
  | cons u rest ih =>
    intro x
    rw [List.foldl_cons]
    show (rest.foldl _ (some (applyBulk now u x))).map _ = _
    rw [ih (applyBulk now u x)]
    rfl

/-- The status of an address after one full reconciliation: absent
addresses stay absent; a present address ends with the status written
by the last result for it, or its old status if none mentions it. -/
theorem statusOf_after_update (now : Nat) (st : MonState) (results : List PingResult)
    (a : String) :
    statusOf (updatePingResults now st results).1 a =
      (findIP st.ips a).map (fun ip =>
        foldStatus ip.status (results.filter (fun u => u.address == a))) := by
  unfold statusOf
  rw [updatePingResults_state]
  show (findIP (bulkApplyList now _ results) a).map _ = _
  rw [findIP_bulkApplyList, findIP_applyChanges]
  cases hip : findIP st.ips a with
  | none =>
    rw [foldl_ipEffect_none, foldl_applyBulk_none]
    rfl
  | some ip =>
    obtain ⟨ip2, hip2, hstat⟩ := foldl_ipEffect_some now
      ((results.filterMap (detectChange st.ips)).filter (fun c => c.address == a)) ip
    rw [hip2, foldl_applyBulk_status, hstat]
    rfl

/-! ### Closing downtime events -/

theorem setFirst_append_of_not_mem (e e2 : DowntimeEvent) :
    ∀ (pre : List DowntimeEvent), e ∉ pre → ∀ post : List DowntimeEvent,
      setFirst (pre ++ e :: post) e e2 = pre ++ e2 :: post := by
  intro pre
  induction pre with
  | nil =>
    intro _ post
    simp [setFirst]
  | cons x rest ih =>
    intro h post
    have hx : ¬ x = e := fun hh => h (hh ▸ List.mem_cons_self x rest)
    simp only [List.cons_append, setFirst, if_neg hx]
    exact congrArg (fun l => x :: l) (ih (fun hm => h (List.mem_cons_of_mem x hm)) post)

theorem updateDuration_no_open (now : Nat) (evts : List DowntimeEvent) (a : String)
    (h : openFor evts a = []) : updateDuration now evts a = evts := by
  unfold updateDuration latestOpen
  rw [h]
  rfl

theorem updateDuration_single_open (now : Nat) (a : String)
    (pre post : List DowntimeEvent) (t0 : Nat) (reas : String)
    (hpre : openFor pre a = []) (hpost : openFor post a = []) :
    updateDuration now (pre ++ (⟨a, t0, none, reas⟩ : DowntimeEvent) :: post) a =
      pre ++ (⟨a, t0, some (now - t0), reas⟩ : DowntimeEvent) :: post := by
  have hopen : openFor (pre ++ (⟨a, t0, none, reas⟩ : DowntimeEvent) :: post) a =
      [(⟨a, t0, none, reas⟩ : DowntimeEvent)] := by
    unfold openFor at hpre hpost ⊢
    rw [List.filter_append, List.filter_cons]
    simp [hpre, hpost]
  unfold updateDuration latestOpen
  rw [hopen]
  have hmax : maxOpen [(⟨a, t0, none, reas⟩ : DowntimeEvent)] =
      some (⟨a, t0, none, reas⟩ : DowntimeEvent) := rfl
  rw [hmax]
  have hne : (⟨a, t0, none, reas⟩ : DowntimeEvent) ∉ pre := by
    intro hmem
    have hm2 : (⟨a, t0, none, reas⟩ : DowntimeEvent) ∈ openFor pre a := by
      unfold openFor
      rw [List.mem_filter]
      exact ⟨hmem, by simp⟩
    rw [hpre] at hm2
    cases hm2
  exact setFirst_append_of_not_mem _ _ pre hne post

/-- Single-outcome reconciliation, with the change loop resolved. -/
theorem updatePingResults_single (now : Nat) (st : MonState) (r : PingResult) :
    (updatePingResults now st [r]).1 =
      { ips := updateFirst (match detectChange st.ips r with
          | none => st
          | some c => applyChange now st c).ips r.address (applyBulk now r),
        downtimes := (match detectChange st.ips r with
          | none => st
          | some c => applyChange now st c).downtimes } := by
  rw [updatePingResults_state]
  cases hd : detectChange st.ips r <;>
    simp [List.filterMap_cons, hd, bulkApplyList]

/-- C8 (amended): an outcome whose address has no record in the store
at reconciliation time is a complete no-op — no transition is counted,
no downtime event is opened, `downtimeCount` and `lastDowntime` are
unchanged, and (because the bulk update matches no document) the
status, `lastChecked` and `responseTime` are not set either. -/
theorem reconcile_absent_noop (now : Nat) (st : MonState) (r : PingResult)
    (hip : findIP st.ips r.address = none) :
    (updatePingResults now st [r]).1 = st ∧
    (updatePingResults now st [r]).2 = { total := 1, updated := 0, statusChanges := 0 } := by
  have hdc := detectChange_not_found st.ips r hip
  constructor
  · rw [updatePingResults_single, hdc]
    dsimp only
    rw [updateFirst_not_found _ _ _ hip]
  · simp [updatePingResults, List.filterMap_cons, hdc, bulkUpdateStatus, hip]

/-- Counterexample for C8 as stated: for an address with no record, the
claim's "only the status (with lastChecked/responseTime) is set" fails —
reconciliation leaves the store entirely unchanged and no status is
recorded for the address. -/
theorem first_check_nothing_set_cex :
    (updatePingResults 100 stC8 [rC8]).1 = stC8 ∧
    statusOf (updatePingResults 100 stC8 [rC8]).1 "10.0.0.2" ≠ some Status.up :=
  ⟨by decide, by decide⟩

/-- Witness for C8 (amended) on a concrete store. -/
theorem reconcile_absent_noop_witness :
    findIP stC8.ips rC8.address = none ∧
    ((updatePingResults 100 stC8 [rC8]).1 = stC8 ∧
     (updatePingResults 100 stC8 [rC8]).2 =
       { total := 1, updated := 0, statusChanges := 0 }) :=
  ⟨by decide, reconcile_absent_noop 100 stC8 rC8 (by decide)⟩

/-- C2 (amended): for a single reconciled outcome on an address with a
record: a transition to Down (prior Up or Unknown) increments
`downtimeCount` by exactly 2 (once in the transition handler, once in
the bulk status update), sets `lastDowntime = now`, and appends exactly
one open downtime event; a Down outcome without a transition (prior
Down) still increments `downtimeCount` by 1 through the bulk update and
touches no event; an Up outcome never changes `downtimeCount` or
`lastDowntime`. -/
theorem reconcile_downtimeCount (now : Nat) (st : MonState) (r : PingResult) (ip : IPDoc)
    (hip : findIP st.ips r.address = some ip) :
    ((r.alive = false ∧ ip.status ≠ Status.down) →
      (findIP (updatePingResults now st [r]).1.ips r.address).map
          (fun x => x.downtimeCount) = some (ip.downtimeCount + 2) ∧
      (findIP (updatePingResults now st [r]).1.ips r.address).map
          (fun x => x.lastDowntime) = some (some now) ∧
      (updatePingResults now st [r]).1.downtimes =
        st.downtimes ++ [(⟨r.address, now, none, "Ping timeout"⟩ : DowntimeEvent)]) ∧
    ((r.alive = false ∧ ip.status = Status.down) →
      (findIP (updatePingResults now st [r]).1.ips r.address).map
          (fun x => x.downtimeCount) = some (ip.downtimeCount + 1) ∧
      (findIP (updatePingResults now st [r]).1.ips r.address).map
          (fun x => x.lastDowntime) = some ip.lastDowntime ∧
      (updatePingResults now st [r]).1.downtimes = st.downtimes) ∧
    (r.alive = true →
      (findIP (updatePingResults now st [r]).1.ips r.address).map
          (fun x => x.downtimeCount) = some ip.downtimeCount ∧
      (findIP (updatePingResults now st [r]).1.ips r.address).map
          (fun x => x.lastDowntime) = some ip.lastDowntime) := by
  refine ⟨?_, ?_, ?_⟩
  · rintro ⟨ha, hs⟩
    have hns : newStatus r = Status.down := by simp [newStatus, ha]
    have hdc : detectChange st.ips r =
        some { address := r.address, fromStatus := ip.status, toStatus := Status.down } := by
      simp only [detectChange, hip, hns]
      rw [if_pos hs]
    have happ : applyChange now st
        { address := r.address, fromStatus := ip.status, toStatus := Status.down } =
        { ips := updateFirst st.ips r.address (downSet now),
          downtimes := recordDowntime now st.downtimes r.address } := by
      unfold applyChange
      rw [if_pos rfl]
    rw [updatePingResults_single, hdc]
    dsimp only
    rw [happ]
    dsimp only
    rw [findIP_updateFirst_self _ _ _ (applyBulk_address now r),
        findIP_updateFirst_self _ _ _ (downSet_address now), hip]
    refine ⟨?_, ?_, ?_⟩
    · simp [applyBulk, downSet, ha]
    · simp [applyBulk, downSet]
    · rfl
  · rintro ⟨ha, hs⟩
    have hns : newStatus r = Status.down := by simp [newStatus, ha]
    have hdc : detectChange st.ips r = none := by
      simp [detectChange, hip, hns, hs]
    rw [updatePingResults_single, hdc]
    dsimp only
    rw [findIP_updateFirst_self _ _ _ (applyBulk_address now r), hip]
    refine ⟨?_, ?_, rfl⟩
    · simp [applyBulk, ha]
    · simp [applyBulk]
  · intro ha
    have hns : newStatus r = Status.up := by simp [newStatus, ha]
    cases hst : ip.status with
    | up =>
      have hdc : detectChange st.ips r = none := by
        simp [detectChange, hip, hns, hst]
      rw [updatePingResults_single, hdc]
      dsimp only
      rw [findIP_updateFirst_self _ _ _ (applyBulk_address now r), hip]
      constructor
      · simp [applyBulk, ha]
      · simp [applyBulk]
    | down =>
      have hdc : detectChange st.ips r =
          some { address := r.address, fromStatus := Status.down,
                 toStatus := Status.up } := by
        simp only [detectChange, hip, hns, hst]
        rw [if_pos (by simp)]
      have happ : applyChange now st
          { address := r.address, fromStatus := Status.down, toStatus := Status.up } =
          { st with downtimes := updateDuration now st.downtimes r.address } := by
        unfold applyChange
        rw [if_neg (by simp), if_pos (by simp)]
      rw [updatePingResults_single, hdc]
      dsimp only
      rw [happ]
      dsimp only
      rw [findIP_updateFirst_self _ _ _ (applyBulk_address now r), hip]
      constructor
      · simp [applyBulk, ha]
      · simp [applyBulk]
    | unknown =>
      have hdc : detectChange st.ips r =
          some { address := r.address, fromStatus := Status.unknown,
                 toStatus := Status.up } := by
        simp only [detectChange, hip, hns, hst]
        rw [if_pos (by simp)]
      have happ : applyChange now st
          { address := r.address, fromStatus := Status.unknown, toStatus := Status.up } =
          st := by
        unfold applyChange
        rw [if_neg (by simp), if_neg (by simp)]
      rw [updatePingResults_single, hdc]
      dsimp only
      rw [happ]
      rw [findIP_updateFirst_self _ _ _ (applyBulk_address now r), hip]
      constructor
      · simp [applyBulk, ha]
      · simp [applyBulk]

/-- Counterexample for C2 as stated: an Up-to-Down transition raises
`downtimeCount` from 0 to 2, not by exactly 1; and a Down outcome with
prior status already Down (not a transition) still raises it from 0 to
1 instead of leaving it unchanged. -/
theorem transition_increment_cex :
    (findIP (updatePingResults 100 stC2a [rC2]).1.ips "10.0.0.1").map
        (fun x => x.downtimeCount) = some 2 ∧
    (findIP (updatePingResults 100 stC2b [rC2]).1.ips "10.0.0.1").map
        (fun x => x.downtimeCount) = some 1 :=
  ⟨by decide, by decide⟩

/-- Witness for C2 (amended) on a concrete Up-to-Down transition. -/
theorem reconcile_downtimeCount_witness :
    findIP stC2a.ips rC2.address =
      some { address := "10.0.0.1", status := Status.up, downtimeCount := 0,
             lastDowntime := none, lastChecked := 0, responseTime := none } ∧
    (rC2.alive = false ∧ Status.up ≠ Status.down) ∧
    ((findIP (updatePingResults 100 stC2a [rC2]).1.ips rC2.address).map
        (fun x => x.downtimeCount) = some (0 + 2) ∧
      (findIP (updatePingResults 100 stC2a [rC2]).1.ips rC2.address).map
        (fun x => x.lastDowntime) = some (some 100) ∧
      (updatePingResults 100 stC2a [rC2]).1.downtimes =
        stC2a.downtimes ++ [(⟨rC2.address, 100, none, "Ping timeout"⟩ : DowntimeEvent)]) :=
  ⟨by decide, ⟨rfl, by decide⟩,
   (reconcile_downtimeCount 100 stC2a rC2
       { address := "10.0.0.1", status := Status.up, downtimeCount := 0,
         lastDowntime := none, lastChecked := 0, responseTime := none }
       (by decide)).1 ⟨rfl, by decide⟩⟩

/-- C4: for a Down-to-Up outcome, the single open downtime event of the
address (wherever it sits in the collection) gets `duration = now -
start`, in place — no new event is opened; and when no open event
exists the closure is a no-op that leaves the event store unchanged. -/
theorem reconcile_closure (now : Nat) (st : MonState) (r : PingResult) (ip : IPDoc)
    (hip : findIP st.ips r.address = some ip) (hstatus : ip.status = Status.down)
    (halive : r.alive = true) :
    (∀ (pre post : List DowntimeEvent) (t0 : Nat) (reas : String),
      st.downtimes = pre ++ (⟨r.address, t0, none, reas⟩ : DowntimeEvent) :: post →
      openFor pre r.address = [] → openFor post r.address = [] →
      (updatePingResults now st [r]).1.downtimes =
        pre ++ (⟨r.address, t0, some (now - t0), reas⟩ : DowntimeEvent) :: post) ∧
    (openFor st.downtimes r.address = [] →
      (updatePingResults now st [r]).1.downtimes = st.downtimes) := by
  have hns : newStatus r = Status.up := by simp [newStatus, halive]
  have hdc : detectChange st.ips r =
      some { address := r.address, fromStatus := Status.down, toStatus := Status.up } := by
    simp only [detectChange, hip, hns, hstatus]
    rw [if_pos (by simp)]
  have happ : applyChange now st
      { address := r.address, fromStatus := Status.down, toStatus := Status.up } =
      { st with downtimes := updateDuration now st.downtimes r.address } := by
    unfold applyChange
    rw [if_neg (by simp), if_pos (by simp)]
  have hdt : (updatePingResults now st [r]).1.downtimes =
      updateDuration now st.downtimes r.address := by
    rw [updatePingResults_single, hdc]
    dsimp only
    rw [happ]
  constructor
  · intro pre post t0 reas hdec hpre hpost
    rw [hdt, hdec]
    exact updateDuration_single_open now r.address pre post t0 reas hpre hpost
  · intro hopen
    rw [hdt]
    exact updateDuration_no_open now st.downtimes r.address hopen

/-- Witness for C4 on a concrete store with one open event. -/
theorem reconcile_closure_witness :
    findIP stC4.ips rC4.address =
      some { address := "10.0.0.1", status := Status.down, downtimeCount := 1,
             lastDowntime := some 40, lastChecked := 40, responseTime := none } ∧
    rC4.alive = true ∧
    stC4.downtimes = [] ++ (⟨rC4.address, 40, none, "Ping timeout"⟩ : DowntimeEvent) :: [] ∧
    (updatePingResults 60 stC4 [rC4]).1.downtimes =
      [] ++ (⟨rC4.address, 40, some 20, "Ping timeout"⟩ : DowntimeEvent) :: [] :=
  ⟨by decide, rfl, by decide,
   (reconcile_closure 60 stC4 rC4
       { address := "10.0.0.1", status := Status.down, downtimeCount := 1,
         lastDowntime := some 40, lastChecked := 40, responseTime := none }
       (by decide) rfl rfl).1 [] [] 40 "Ping timeout" (by decide) rfl rfl⟩

/-- C9 (amended): when duplicate outcomes for one address reach
reconciliation, the last-seen outcome does determine the final status
(the bulk ops are applied in list order), but transition effects are
applied once per duplicate occurrence, each compared against the same
pre-cycle snapshot: two duplicate Down outcomes on a previously-Up
address open two downtime events and raise `downtimeCount` by 4 (2 in
the change loop, 2 in the bulk update). -/
theorem duplicate_outcomes (now : Nat) (st : MonState) (r1 r2 : PingResult) (ip : IPDoc)
    (hip : findIP st.ips r1.address = some ip)
    (haddr : r2.address = r1.address)
    (hst : ip.status = Status.up) (h1 : r1.alive = false) (h2 : r2.alive = false) :
    statusOf (updatePingResults now st [r1, r2]).1 r1.address = some Status.down ∧
    (findIP (updatePingResults now st [r1, r2]).1.ips r1.address).map
        (fun x => x.downtimeCount) = some (ip.downtimeCount + 4) ∧
    (updatePingResults now st [r1, r2]).1.downtimes =
      st.downtimes ++ [(⟨r1.address, now, none, "Ping timeout"⟩ : DowntimeEvent),
                       (⟨r2.address, now, none, "Ping timeout"⟩ : DowntimeEvent)] := by
  have hns1 : newStatus r1 = Status.down := by simp [newStatus, h1]
  have hns2 : newStatus r2 = Status.down := by simp [newStatus, h2]
  have hip2 : findIP st.ips r2.address = some ip := by rw [haddr]; exact hip
  have hdc1 : detectChange st.ips r1 =
      some { address := r1.address, fromStatus := Status.up, toStatus := Status.down } := by
    simp only [detectChange, hip, hns1, hst]
    rw [if_pos (by simp)]
  have hdc2 : detectChange st.ips r2 =
      some { address := r2.address, fromStatus := Status.up, toStatus := Status.down } := by
    simp only [detectChange, hip2, hns2, hst]
    rw [if_pos (by simp)]
  have happ : ∀ (s : MonState) (b : String),
      applyChange now s { address := b, fromStatus := Status.up, toStatus := Status.down } =
      { ips := updateFirst s.ips b (downSet now),
        downtimes := recordDowntime now s.downtimes b } := by
    intro s b
    unfold applyChange
    rw [if_pos rfl]
  refine ⟨?_, ?_, ?_⟩
  · rw [statusOf_after_update, hip]
    have hfil : [r1, r2].filter (fun u => u.address == r1.address) = [r1, r2] := by
      simp [haddr]
    rw [hfil]
    simp [foldStatus, hns2]
  · rw [updatePingResults_state]
    show (findIP (bulkApplyList now _ [r1, r2]) r1.address).map _ = _
    simp only [List.filterMap_cons, List.filterMap_nil, hdc1, hdc2,
      List.foldl_cons, List.foldl_nil, happ, bulkApplyList]
    rw [haddr]
    rw [findIP_updateFirst_self _ _ _ (applyBulk_address now r2),
        findIP_updateFirst_self _ _ _ (applyBulk_address now r1),
        findIP_updateFirst_self _ _ _ (downSet_address now),
        findIP_updateFirst_self _ _ _ (downSet_address now), hip]
    simp [applyBulk, downSet, h1, h2]
  · rw [updatePingResults_state]
    show ((List.foldl (applyChange now) st _).downtimes) = _
    simp only [List.filterMap_cons, List.filterMap_nil, hdc1, hdc2,
      List.foldl_cons, List.foldl_nil, happ]
    unfold recordDowntime
    rw [List.append_assoc]
    rfl

/-- Counterexample for C9 as stated: one reconciliation of two
duplicate Down outcomes for a previously-Up address opens two downtime
events and raises `downtimeCount` to 4 — duplicates do produce multiple
transition applications. -/
theorem duplicate_outcomes_cex :
    (openFor (updatePingResults 100 stC9 [rC9, rC9]).1.downtimes "10.0.0.1").length = 2 ∧
    (findIP (updatePingResults 100 stC9 [rC9, rC9]).1.ips "10.0.0.1").map
        (fun x => x.downtimeCount) = some 4 :=
  ⟨by decide, by decide⟩

/-- Witness for C9 (amended) on a concrete duplicate pair. -/
theorem duplicate_outcomes_witness :
    findIP stC9.ips rC9.address =
      some { address := "10.0.0.1", status := Status.up, downtimeCount := 0,
             lastDowntime := none, lastChecked := 0, responseTime := none } ∧
    (statusOf (updatePingResults 100 stC9 [rC9, rC9]).1 rC9.address =
        some Status.down ∧
      (findIP (updatePingResults 100 stC9 [rC9, rC9]).1.ips rC9.address).map
        (fun x => x.downtimeCount) = some (0 + 4) ∧
      (updatePingResults 100 stC9 [rC9, rC9]).1.downtimes =
        stC9.downtimes ++ [(⟨rC9.address, 100, none, "Ping timeout"⟩ : DowntimeEvent),
                           (⟨rC9.address, 100, none, "Ping timeout"⟩ : DowntimeEvent)]) :=
  ⟨by decide,
   duplicate_outcomes 100 stC9 rC9 rC9
     { address := "10.0.0.1", status := Status.up, downtimeCount := 0,
       lastDowntime := none, lastChecked := 0, responseTime := none }
     (by decide) rfl rfl rfl rfl⟩

/-- One serial reconciliation with duplicate-free outcome addresses
preserves the open-event invariant. -/
theorem OpenInv_preserved (now : Nat) (st : MonState) (results : List PingResult)
    (hinv : OpenInv st) (hnd : nodupAddrs results) :
    OpenInv (updatePingResults now st results).1 := by
  intro a
  have hopen2 : openFor (updatePingResults now st results).1.downtimes a =
      ((results.filter (fun r => r.address == a)).filterMap (detectChange st.ips)).foldl
        (fun cur c => openEffect now c cur) (openFor st.downtimes a) := by
    rw [updatePingResults_state]
    show openFor
        ((results.filterMap (detectChange st.ips)).foldl (applyChange now) st).downtimes a = _
    rw [openFor_applyChanges, filter_filterMap_detectChange]
  have hstatus2 := statusOf_after_update now st results a
  have hlen := nodupAddrs_filter_length results hnd a
  rw [hopen2]
  cases hres : results.filter (fun r => r.address == a) with
  | nil =>
    rw [hres] at hstatus2
    simp only [List.filterMap_nil, List.foldl_nil]
    refine ⟨(hinv a).1, fun h1 => ?_⟩
    have hdown := (hinv a).2 h1
    unfold statusOf at hdown
    obtain ⟨ip, hipeq, hipstat⟩ := Option.map_eq_some'.mp hdown
    rw [hstatus2, hipeq]
    simp [foldStatus, hipstat]
  | cons r rest =>
    have hrest : rest = [] := by
      rw [hres] at hlen
      simp only [List.length_cons] at hlen
      exact List.length_eq_zero.mp (by omega)
    subst hrest
    have hra : r.address = a := by
      have hmem : r ∈ results.filter (fun r => r.address == a) := by
        rw [hres]; exact List.mem_cons_self r []
      rw [List.mem_filter] at hmem
      exact beq_iff_eq.mp hmem.2
    rw [hres] at hstatus2
    cases hdc : detectChange st.ips r with
    | none =>
      simp only [List.filterMap_cons, List.filterMap_nil, hdc, List.foldl_nil]
      refine ⟨(hinv a).1, fun h1 => ?_⟩
      have hdown := (hinv a).2 h1
      unfold statusOf at hdown
      obtain ⟨ip, hipeq, hipstat⟩ := Option.map_eq_some'.mp hdown
      have hipeq2 : findIP st.ips r.address = some ip := by rw [hra]; exact hipeq
      have heq := detectChange_none_found st.ips r ip hipeq2 hdc
      rw [hstatus2, hipeq]
      show some (foldStatus ip.status [r]) = some Status.down
      rw [show foldStatus ip.status [r] = newStatus r from rfl, ← heq, hipstat]
    | some c =>
      obtain ⟨ip, hipeq, hne, hceq⟩ := detectChange_some_inv st.ips r c hdc
      have hipa : findIP st.ips a = some ip := by rw [← hra]; exact hipeq
      have hta : c.address = r.address := by rw [hceq]
      have htt : c.toStatus = newStatus r := by rw [hceq]
      have htf : c.fromStatus = ip.status := by rw [hceq]
      simp only [List.filterMap_cons, List.filterMap_nil, hdc, List.foldl_cons,
        List.foldl_nil]
      cases halive : r.alive with
      | false =>
        have hns : newStatus r = Status.down := by simp [newStatus, halive]
        have hipne : ip.status ≠ Status.down := by rw [← hns]; exact hne
        have hcur : openFor st.downtimes a = [] := by
          by_contra hc
          have hlen1 : 1 ≤ (openFor st.downtimes a).length := by
            cases hcc : openFor st.downtimes a with
            | nil => exact absurd hcc hc
            | cons x t => simp
          have hdown := (hinv a).2 hlen1
          unfold statusOf at hdown
          rw [hipa] at hdown
          simp only [Option.map_some', Option.some_inj] at hdown
          exact hipne hdown
        have hX : openEffect now c (openFor st.downtimes a) =
            openFor st.downtimes a ++
              [(⟨c.address, now, none, "Ping timeout"⟩ : DowntimeEvent)] := by
          unfold openEffect
          rw [htt, hns, if_pos rfl]
        rw [hX, hcur]
        refine ⟨by simp, fun _ => ?_⟩
        rw [hstatus2, hipa]
        have hfs : foldStatus ip.status [r] = newStatus r := rfl
        simp only [Option.map_some', hfs, hns]
      | true =>
        have hns : newStatus r = Status.up := by simp [newStatus, halive]
        by_cases hfrom : ip.status = Status.down
        · have hX : openEffect now c (openFor st.downtimes a) =
              match maxOpen (openFor st.downtimes a) with
              | none => openFor st.downtimes a
              | some e => eraseFirst (openFor st.downtimes a) e := by
            unfold openEffect
            rw [htt, hns, htf, hfrom, if_neg (by simp), if_pos (by simp)]
          rw [hX]
          have hle := (hinv a).1
          cases hcc : openFor st.downtimes a with
          | nil =>
            have hred : (match maxOpen ([] : List DowntimeEvent) with
                | none => ([] : List DowntimeEvent)
                | some e => eraseFirst [] e) = [] := rfl
            rw [hred]
            exact ⟨by simp, fun h1 => absurd h1 (by simp)⟩
          | cons x t =>
            have ht0 : t = [] := by
              rw [hcc] at hle
              simp only [List.length_cons] at hle
              exact List.length_eq_zero.mp (by omega)
            subst ht0
            have hred : (match maxOpen [x] with
                | none => [x]
                | some e => eraseFirst [x] e) = eraseFirst [x] x := rfl
            rw [hred]
            have he : eraseFirst [x] x = [] := by simp [eraseFirst]
            rw [he]
            exact ⟨by simp, fun h1 => absurd h1 (by simp)⟩
        · have hcur : openFor st.downtimes a = [] := by
            by_contra hc
            have hlen1 : 1 ≤ (openFor st.downtimes a).length := by
              cases hcc : openFor st.downtimes a with
              | nil => exact absurd hcc hc
              | cons x t => simp
            have hdown := (hinv a).2 hlen1
            unfold statusOf at hdown
            rw [hipa] at hdown
            simp only [Option.map_some', Option.some_inj] at hdown
            exact hfrom hdown
          have hX : openEffect now c (openFor st.downtimes a) =
              openFor st.downtimes a := by
            unfold openEffect
            rw [htt, hns, htf, if_neg (by simp), if_neg (fun hand => hfrom hand.2)]
          rw [hX, hcur]
          exact ⟨by simp, fun h1 => absurd h1 (by simp)⟩

/-- C5: starting from a store with no open downtime events, any
sequence of serial per-cycle reconciliations with duplicate-free
outcome addresses leaves every address with at most one open downtime
event after every cycle. -/
theorem downtime_open_invariant (st0 : MonState) (cycles : List (Nat × List PingResult))
    (hstart : ∀ a, openFor st0.downtimes a = [])
    (hnd : ∀ c ∈ cycles, nodupAddrs c.2) :
    ∀ (k : Nat) (a : String),
      (openFor (((cycles.take k).foldl
          (fun st c => (updatePingResults c.1 st c.2).1) st0).downtimes) a).length ≤ 1 := by
  have hbase : OpenInv st0 := by
    intro a
    rw [hstart a]
    exact ⟨by simp, fun h => absurd h (by simp)⟩
  have hall : ∀ k, OpenInv ((cycles.take k).foldl
      (fun st c => (updatePingResults c.1 st c.2).1) st0) := by
    intro k
    induction k with
    | zero => simpa using hbase
    | succ n ih =>
      rw [List.take_succ, List.foldl_append]
      cases hc : cycles[n]? with
      | none => simpa [hc] using ih
      | some c =>
        simp only [hc, Option.toList_some, List.foldl_cons, List.foldl_nil]
        exact OpenInv_preserved c.1 _ c.2 ih (hnd c (List.getElem?_mem hc))
  intro k a
  exact (hall k a).1

/-- Witness for C5 on a concrete three-cycle run. -/
theorem downtime_open_invariant_witness :
    (∀ a, openFor stC5.downtimes a = []) ∧
    (∀ c ∈ cyclesC5, nodupAddrs c.2) ∧
    (openFor (((cyclesC5.take 2).foldl
        (fun st c => (updatePingResults c.1 st c.2).1) stC5).downtimes)
      "10.0.0.1").length ≤ 1 := by
  have hnd : ∀ c ∈ cyclesC5, nodupAddrs c.2 := by
    intro c hc
    unfold nodupAddrs
    simp only [cyclesC5, List.mem_cons, List.not_mem_nil, or_false] at hc
    rcases hc with rfl | rfl | rfl <;> decide
  exact ⟨fun _ => rfl, hnd,
    downtime_open_invariant stC5 cyclesC5 (fun _ => rfl) hnd 2 "10.0.0.1"⟩

end IpMonitor
